import Mathlib

/-!
Shallow embedding of the task store, websocket handlers and subtitle
export utilities of the video-subtitle application.

Sources embedded here:
* the zustand store (`addTask`, `updateTask`, task helpers, `formatFileSize`);
* the websocket event handlers (`task_progress`, `subtitle_added`,
  `task_completed`, `task_failed`, `synthesis_*`, `task_cancelled`) and the
  merge logic `handleSubtitleAdded` / `handleProgressUpdate`;
* the subtitle export utilities `formatSrtTime`, `generateSrtContent`
  and the export-utility copy of `formatFileSize`.

JS numbers are modelled as exact rationals (ℚ) and timestamps as integers;
machine floating point is idealised away, which is noted at each definition
where it matters.
-/

namespace VideoSubtitleApp

/-! ### Data model (src/frontend/src/types/index.ts) -/

/-- Task status union type `TaskStatus`. -/
inductive TaskStatus where
  | pending
  | processing
  | paused
  | completed
  | failed
  | cancelled
deriving DecidableEq

/-- Pipeline stage union type `TaskStage`. -/
inductive TaskStage where
  | idle
  | extracting_audio
  | vad_detecting
  | transcribing
  | generating_subtitle
  | completed
  | failed
deriving DecidableEq

/-- Subtitle entry (`SubtitleEntry`).  The TS declaration types `id` as
`number`, but `handleSubtitleAdded` copies `raw.id` without checking it, so at
runtime the field may be `undefined`; it is therefore modelled as `Option Int`.
Times are seconds with millisecond precision, modelled as exact rationals. -/
structure SubtitleEntry where
  id : Option Int := none
  startTime : ℚ
  endTime : ℚ
  text : String := ""
  translation : Option String := none
  confidence : Option ℚ := none
  originalText : Option String := none
deriving DecidableEq

/-- Video task record (`VideoTask`). -/
structure VideoTask where
  id : String
  filePath : String := ""
  fileName : String := ""
  fileSize : Nat := 0
  duration : Option ℚ := none
  status : TaskStatus
  progress : ℚ := 0
  stage : TaskStage := .idle
  stageDetail : String := ""
  error : Option String := none
  subtitles : Option (List SubtitleEntry) := none
  createdAt : Int := 0
  updatedAt : Int := 0
  completedAt : Option Int := none
deriving DecidableEq

/-- A `Partial<VideoTask>` updates object: every field optional.  A field that
is itself optional in `VideoTask` becomes `Option (Option _)`, so that an
explicit `undefined` in the update object is distinguished from an absent key.
The `updatedAt` key of an update object is dead: the store's `updateTask`
always overwrites `updatedAt` with `Date.now()` after spreading the updates. -/
structure TaskUpdates where
  id : Option String := none
  filePath : Option String := none
  fileName : Option String := none
  fileSize : Option Nat := none
  duration : Option (Option ℚ) := none
  status : Option TaskStatus := none
  progress : Option ℚ := none
  stage : Option TaskStage := none
  stageDetail : Option String := none
  error : Option (Option String) := none
  subtitles : Option (Option (List SubtitleEntry)) := none
  createdAt : Option Int := none
  updatedAt : Option Int := none
  completedAt : Option (Option Int) := none
deriving DecidableEq

/-! ### The zustand store (src/unnamed/part_004) -/

/-- Object spread `{ ...task, ...updates, updatedAt: Date.now() }`. -/
def applyUpdates (task : VideoTask) (u : TaskUpdates) (now : Int) : VideoTask :=
  { id := u.id.getD task.id
    filePath := u.filePath.getD task.filePath
    fileName := u.fileName.getD task.fileName
    fileSize := u.fileSize.getD task.fileSize
    duration := u.duration.getD task.duration
    status := u.status.getD task.status
    progress := u.progress.getD task.progress
    stage := u.stage.getD task.stage
    stageDetail := u.stageDetail.getD task.stageDetail
    error := u.error.getD task.error
    subtitles := u.subtitles.getD task.subtitles
    createdAt := u.createdAt.getD task.createdAt
    updatedAt := now
    completedAt := u.completedAt.getD task.completedAt }

/-- Store action `addTask`: `tasks: [...state.tasks, task]`. -/
def addTask (tasks : List VideoTask) (task : VideoTask) : List VideoTask :=
  tasks ++ [task]

/-- Store action `updateTask`: map over the task list, merging the updates into
every task whose id matches and stamping `updatedAt` with the current time. -/
def updateTask (tasks : List VideoTask) (id : String) (u : TaskUpdates)
    (now : Int) : List VideoTask :=
  tasks.map fun task => if task.id = id then applyUpdates task u now else task

/-- Store selector `getTaskById`: first task with the given id. -/
def getTaskById (tasks : List VideoTask) (id : String) : Option VideoTask :=
  tasks.find? fun task => task.id = id

/-- Whether a status is terminal (`completed`, `failed` or `cancelled`). -/
def isTerminal (s : TaskStatus) : Bool :=
  s = .completed || s = .failed || s = .cancelled

/-! ### File-size formatting (store helper and export-utility copy)

Both implementations compute
`parseFloat((bytes / Math.pow(1024, i)).toFixed(2)) + ' ' + sizes[i]` with
`i = Math.floor(Math.log(bytes) / Math.log(1024))`; they differ only in the
`sizes` array.  The float logarithm is idealised to the exact
floor-of-log `Nat.log 1024`, and `toFixed(2)`/`parseFloat` to exact rational
rounding followed by printing without trailing zeros. -/

/-- JS array indexing where an out-of-bounds read yields `undefined`, which
string concatenation renders as the text `"undefined"`. -/
def jsIndex (xs : List String) (i : Nat) : String :=
  xs.getD i "undefined"

/-- Idealisation of `parseFloat(q.toFixed(2)).toString()` for a nonnegative
rational: round to two decimals (half away from zero) and print the result
without trailing fractional zeros. -/
def fixed2String (q : ℚ) : String :=
  let c : Int := ⌊q * 100 + 1 / 2⌋
  let ip := c / 100
  let fp := (c % 100).toNat
  if fp = 0 then toString ip
  else if fp % 10 = 0 then toString ip ++ "." ++ toString (fp / 10)
  else if fp < 10 then toString ip ++ ".0" ++ toString fp
  else toString ip ++ "." ++ toString fp

/-- Store helper `formatFileSize` (src/unnamed/part_004): unit array without
`'TB'`. -/
def formatFileSize_store (bytes : Nat) : String :=
  if bytes = 0 then "0 B"
  else
    let i := Nat.log 1024 bytes
    fixed2String ((bytes : ℚ) / (1024 : ℚ) ^ i) ++ " " ++
      jsIndex ["B", "KB", "MB", "GB"] i

/-- Export-utility `formatFileSize` (src/frontend/src/main.tsx): unit array
with `'TB'`. -/
def formatFileSize_util (bytes : Nat) : String :=
  if bytes = 0 then "0 B"
  else
    let i := Nat.log 1024 bytes
    fixed2String ((bytes : ℚ) / (1024 : ℚ) ^ i) ++ " " ++
      jsIndex ["B", "KB", "MB", "GB", "TB"] i

/-! ### Websocket payloads and handlers (src/frontend/src/services/api.ts)

Every socket callback updates the store through `updateTask` and then
re-emits a local event to the `wsService` listeners. -/

/-- Incoming `ProgressUpdate` payload of a `task_progress` event. -/
structure ProgressUpdate where
  taskId : String
  stage : TaskStage
  progress : ℚ
  detail : String
  timestamp : Int := 0
  currentSegment : Option Nat := none
  totalSegments : Option Nat := none
deriving DecidableEq

/-- Raw payload of a `subtitle_added` event (`data.subtitle`, typed `any`):
each field may be absent.  The backend sends either `startTime`/`endTime` or
`start`/`end`; `handleSubtitleAdded` normalises between the two spellings. -/
structure RawSubtitle where
  id : Option Int := none
  startTime : Option ℚ := none
  start : Option ℚ := none
  endTime : Option ℚ := none
  «end» : Option ℚ := none
  text : Option String := none
  confidence : Option ℚ := none
deriving DecidableEq

/-- The normalisation step of `handleSubtitleAdded`: prefer `startTime` over
`start` (resp. `endTime` over `end`), default `text` to `''`, and reject the
payload when either time is missing (the handler returns early). -/
def normalizeSubtitle (raw : RawSubtitle) : Option SubtitleEntry :=
  let st := match raw.startTime with
    | some v => some v
    | none => raw.start
  let en := match raw.endTime with
    | some v => some v
    | none => raw.«end»
  match st, en with
  | some s, some e =>
      some { id := raw.id, startTime := s, endTime := e,
             text := raw.text.getD "", confidence := raw.confidence }
  | _, _ => none

/-- The JS array sort `(a, b) => a.startTime - b.startTime`: a stable sort by
`startTime`, modelled by the stable `List.mergeSort`. -/
def jsSortByStartTime (l : List SubtitleEntry) : List SubtitleEntry :=
  l.mergeSort fun a b => decide (a.startTime ≤ b.startTime)

/-- Handler `handleSubtitleAdded`: look the task up, normalise the payload,
drop it when an entry with the same id is already present, otherwise append
and re-sort by `startTime`. -/
def handleSubtitleAdded (tasks : List VideoTask) (taskId : String)
    (raw : RawSubtitle) (now : Int) : List VideoTask :=
  match getTaskById tasks taskId with
  | none => tasks
  | some task =>
    let currentSubtitles := task.subtitles.getD []
    match normalizeSubtitle raw with
    | none => tasks
    | some entry =>
      if (currentSubtitles.find? fun s => s.id = entry.id).isSome then tasks
      else
        updateTask tasks taskId
          { subtitles := some (some (jsSortByStartTime (currentSubtitles ++ [entry]))) }
          now

/-- Handler `handleProgressUpdate`: copy `progress`, `stage` and `detail` from
the update into the task verbatim. -/
def handleProgressUpdate (tasks : List VideoTask) (u : ProgressUpdate)
    (now : Int) : List VideoTask :=
  updateTask tasks u.taskId
    { progress := some u.progress, stage := some u.stage,
      stageDetail := some u.detail } now

/-- Incoming socket events whose callbacks mutate the task store. -/
inductive IncomingEvent where
  | taskProgress (u : ProgressUpdate)
  | subtitleAdded (taskId : String) (subtitle : RawSubtitle)
  | taskCompleted (task : VideoTask)
  | taskFailed (taskId : String) (error : String)
  | synthesisProgress (taskId : String) (progress : ℚ) (detail : String) (timestamp : Int)
  | synthesisCompleted (taskId : String) (outputPath : String) (timestamp : Int)
  | synthesisFailed (taskId : String) (error : String) (timestamp : Int)
  | taskCancelled (taskId : String)
deriving DecidableEq

/-- Local events re-emitted to `wsService` listeners by the socket
callbacks, in the order they are emitted. -/
inductive WsEvent where
  | progress (u : ProgressUpdate)
  | subtitleAdded (taskId : String) (subtitle : RawSubtitle)
  | completed (task : VideoTask)
  | failed (taskId : String) (error : String)
  | synthesisProgress (taskId : String) (progress : ℚ) (detail : String) (timestamp : Int)
  | synthesisCompleted (taskId : String) (outputPath : String) (timestamp : Int)
  | synthesisFailed (taskId : String) (error : String) (timestamp : Int)
  | cancelled (taskId : String)
deriving DecidableEq

/-- Store effect of each socket callback. -/
def dispatch (e : IncomingEvent) (tasks : List VideoTask) (now : Int) :
    List VideoTask :=
  match e with
  | .taskProgress u => handleProgressUpdate tasks u now
  | .subtitleAdded taskId raw => handleSubtitleAdded tasks taskId raw now
  | .taskCompleted task =>
      updateTask tasks task.id
        { status := some .completed, progress := some 100,
          stage := some .completed, stageDetail := some "处理完成",
          subtitles := some task.subtitles, completedAt := some (some now) } now
  | .taskFailed taskId err =>
      updateTask tasks taskId
        { status := some .failed, error := some (some err),
          stageDetail := some ("处理失败: " ++ err) } now
  | .synthesisProgress taskId p detail _ =>
      updateTask tasks taskId
        { progress := some p, stage := some .generating_subtitle,
          stageDetail := some detail } now
  | .synthesisCompleted taskId _ _ =>
      updateTask tasks taskId
        { status := some .completed, progress := some 100,
          stage := some .completed, stageDetail := some "视频合成完成" } now
  | .synthesisFailed taskId err _ =>
      updateTask tasks taskId
        { status := some .failed, error := some (some err),
          stageDetail := some ("合成失败: " ++ err) } now
  | .taskCancelled taskId =>
      updateTask tasks taskId
        { status := some .cancelled, stageDetail := some "已取消" } now

/-- The local event each socket callback re-emits after its store update. -/
def localEvent (e : IncomingEvent) : WsEvent :=
  match e with
  | .taskProgress u => .progress u
  | .subtitleAdded taskId raw => .subtitleAdded taskId raw
  | .taskCompleted task => .completed task
  | .taskFailed taskId err => .failed taskId err
  | .synthesisProgress taskId p d ts => .synthesisProgress taskId p d ts
  | .synthesisCompleted taskId o ts => .synthesisCompleted taskId o ts
  | .synthesisFailed taskId err ts => .synthesisFailed taskId err ts
  | .taskCancelled taskId => .cancelled taskId

/-- A socket callback as a step on (store, emitted event log). -/
def handleEvent (e : IncomingEvent) (st : List VideoTask × List WsEvent)
    (now : Int) : List VideoTask × List WsEvent :=
  (dispatch e st.1 now, st.2 ++ [localEvent e])

/-- Folding a list of (event, timestamp) pairs through the socket callbacks. -/
def processEvents (evs : List (IncomingEvent × Int))
    (tasks : List VideoTask) : List VideoTask :=
  evs.foldl (fun acc p => dispatch p.1 acc p.2) tasks

/-! ### Subtitle export utilities (src/frontend/src/main.tsx) -/

/-- Export mode union type `ExportMode`. -/
inductive ExportMode where
  | original
  | translated
  | bilingual
  | bilingual_tagged
deriving DecidableEq

/-- JS string-coalescing fallback `o || t`: an absent or empty string is falsy
and falls back to `t`. -/
def orElseText (o : Option String) (t : String) : String :=
  match o with
  | some s => if s = "" then t else s
  | none => t

/-- JS falsiness of the optional `originalText` field (`!sub.originalText`):
true when absent or the empty string. -/
def isFalsyText : Option String → Bool
  | none => true
  | some s => s == ""

/-- Cue text selection of `generateSrtContent` for one entry and mode. -/
def cueContent (sub : SubtitleEntry) (mode : ExportMode) : String :=
  match mode with
  | .original => orElseText sub.originalText sub.text
  | .translated => sub.text
  | .bilingual =>
    let original := orElseText sub.originalText sub.text
    let translation := sub.text
    if original == translation && isFalsyText sub.originalText then original
    else original ++ "\n" ++ translation
  | .bilingual_tagged =>
    let original := orElseText sub.originalText sub.text
    let translation := sub.text
    if original == translation && isFalsyText sub.originalText then
      "[O]" ++ original
    else "[O]" ++ original ++ "\n[T]" ++ translation

/-- JS `String.prototype.padStart(n, c)`: prepend copies of `c` until the
length reaches `n` (no-op when already long enough). -/
def padStart (s : String) (n : Nat) (c : Char) : String :=
  String.mk (List.replicate (n - s.length) c) ++ s

/-- JS remainder `a % b`, for the nonnegative operands used by
`formatSrtTime` (where it agrees with floor-based reduction). -/
def jsMod (a b : ℚ) : ℚ := a - b * ⌊a / b⌋

/-- Export utility `formatSrtTime`: seconds to `HH:MM:SS,mmm` using
`Math.floor` and `padStart`. -/
def formatSrtTime (seconds : ℚ) : String :=
  let h : Int := ⌊seconds / 3600⌋
  let m : Int := ⌊jsMod seconds 3600 / 60⌋
  let s : Int := ⌊jsMod seconds 60⌋
  let ms : Int := ⌊jsMod seconds 1 * 1000⌋
  padStart (toString h) 2 '0' ++ ":" ++ padStart (toString m) 2 '0' ++ ":" ++
    padStart (toString s) 2 '0' ++ "," ++ padStart (toString ms) 3 '0'

/-- One rendered cue of `generateSrtContent`:
`${index + 1}\n${startTime} --> ${endTime}\n${content}\n` where `index` is the
zero-based map index. -/
def srtCue (mode : ExportMode) (index : Nat) (sub : SubtitleEntry) : String :=
  toString (index + 1) ++ "\n" ++ formatSrtTime sub.startTime ++ " --> " ++
    formatSrtTime sub.endTime ++ "\n" ++ cueContent sub mode ++ "\n"

/-- The `subtitles.map((sub, index) => ...)` step of `generateSrtContent`,
carrying the zero-based index. -/
def srtCues (mode : ExportMode) : Nat → List SubtitleEntry → List String
  | _, [] => []
  | i, sub :: subs => srtCue mode i sub :: srtCues mode (i + 1) subs

/-- JS `Array.prototype.join(sep)`. -/
def joinSep (sep : String) : List String → String
  | [] => ""
  | [x] => x
  | x :: xs => x ++ sep ++ joinSep sep xs

/-- Export utility `generateSrtContent`: render every entry as a cue and join
the cues with newlines. -/
def generateSrtContent (subs : List SubtitleEntry)
    (mode : ExportMode := .original) : String :=
  joinSep "\n" (srtCues mode 0 subs)

/-! ### Claim-side renderings and format checkers -/

/-- Claim-side cue rendering carrying an explicit one-based cue number, used
to state that `generateSrtContent` numbers cues 1, 2, 3, ... -/
def srtCueNumbered (mode : ExportMode) (n : Nat) (sub : SubtitleEntry) :
    String :=
  toString n ++ "\n" ++ formatSrtTime sub.startTime ++ " --> " ++
    formatSrtTime sub.endTime ++ "\n" ++ cueContent sub mode ++ "\n"

/-- Claim-side SRT rendering: cues numbered by the one-based sequence
`1, 2, ..., n`. -/
def generateSrtSpec (subs : List SubtitleEntry) (mode : ExportMode) : String :=
  joinSep "\n" (List.zipWith (srtCueNumbered mode) (List.range' 1 subs.length) subs)

/-- Checks the claimed fixed timing shape `HH:MM:SS,mmm`: exactly twelve
characters, digits at the digit positions, `:`/`:`/`,` at the separator
positions. -/
def timingToken (s : String) : Bool :=
  match s.data with
  | [a, b, c, d, e, f, g, h, i, j, k, l] =>
    a.isDigit && b.isDigit && c == ':' && d.isDigit && e.isDigit && f == ':' &&
      g.isDigit && h.isDigit && i == ',' && j.isDigit && k.isDigit && l.isDigit
  | _ => false

/-- Decimal digit value of a digit character. -/
def digitVal (c : Char) : Nat := c.toNat - 48

/-- Two-character zero-padded decimal rendering of a natural number. -/
def pad2 (n : Nat) : String := padStart (Nat.repr n) 2 '0'

/-- Three-character zero-padded decimal rendering of a natural number. -/
def pad3 (n : Nat) : String := padStart (Nat.repr n) 3 '0'

/-- Boolean check that `pad2 n` is two digit characters decoding back to
`n`. -/
def pad2Ok (n : Nat) : Bool :=
  match (pad2 n).data with
  | [a, b] => a.isDigit && b.isDigit && (digitVal a * 10 + digitVal b == n)
  | _ => false

/-- Boolean check that `pad3 n` is three digit characters decoding back to
`n`. -/
def pad3Ok (n : Nat) : Bool :=
  match (pad3 n).data with
  | [a, b, c] =>
    a.isDigit && b.isDigit && c.isDigit &&
      (digitVal a * 100 + digitVal b * 10 + digitVal c == n)
  | _ => false

/-! ### SRT parsing (spec-modelled) -/

/-- Decimal reading of a character list (digit chars assumed). -/
def decVal (cs : List Char) : Nat :=
  cs.foldl (fun a c => a * 10 + digitVal c) 0

/-- Modelled from the spec: the fixed-width timing token parser used by
`parseSubtitles`.  The repository file defining `parseSubtitles` (the subtitle
editor's SRT import) is not among the provided sources; the spec fixes the
timing format to `HH:MM:SS,mmm`, so this parser consumes exactly two digits,
`:`, two digits, `:`, two digits, `,` and three digits, and returns the decoded
time in seconds together with the unconsumed input. -/
def parseTime12 : List Char → Option (ℚ × List Char)
  | h1 :: h2 :: c1 :: m1 :: m2 :: c2 :: s1 :: s2 :: c3 :: d1 :: d2 :: d3 :: rest =>
    if c1 = ':' ∧ c2 = ':' ∧ c3 = ',' ∧ h1.isDigit ∧ h2.isDigit ∧ m1.isDigit ∧
        m2.isDigit ∧ s1.isDigit ∧ s2.isDigit ∧ d1.isDigit ∧ d2.isDigit ∧
        d3.isDigit then
      some ((((digitVal h1 * 10 + digitVal h2) * 3600000 +
        (digitVal m1 * 10 + digitVal m2) * 60000 +
        (digitVal s1 * 10 + digitVal s2) * 1000 +
        (digitVal d1 * 100 + digitVal d2 * 10 + digitVal d3) : ℕ) : ℚ) / 1000,
        rest)
    else none
  | _ => none

/-- Modelled from the spec: the cue-sequence parser of `parseSubtitles`
(source file not provided).  Each cue is an index line (read up to the
newline, decoded as the entry id), a timing line `start --> end`, and one text
line, terminated by the cue's trailing newline; cues are separated by a blank
line.  The first argument is recursion fuel. -/
def parseCues : Nat → List Char → Option (List SubtitleEntry)
  | _, [] => some []
  | 0, _ => none
  | fuel + 1, cs =>
    let idxLine := cs.takeWhile fun c => c != '\n'
    match cs.dropWhile (fun c => c != '\n') with
    | nl1 :: r2 =>
      if nl1 = '\n' then
        match parseTime12 r2 with
        | some (t1, r3) =>
          match r3 with
          | g1 :: g2 :: g3 :: g4 :: g5 :: r4 =>
            if g1 = ' ' ∧ g2 = '-' ∧ g3 = '-' ∧ g4 = '>' ∧ g5 = ' ' then
              match parseTime12 r4 with
              | some (t2, r5) =>
                match r5 with
                | nl2 :: r6 =>
                  if nl2 = '\n' then
                    let textLine := r6.takeWhile fun c => c != '\n'
                    match r6.dropWhile (fun c => c != '\n') with
                    | nl3 :: r8 =>
                      if nl3 = '\n' then
                        let entry : SubtitleEntry :=
                          { id := some (Int.ofNat (decVal idxLine)),
                            startTime := t1, endTime := t2,
                            text := String.mk textLine }
                        match r8 with
                        | [] => some [entry]
                        | nl4 :: r9 =>
                          if nl4 = '\n' then
                            (parseCues fuel r9).map fun es => entry :: es
                          else none
                      else none
                    | [] => none
                  else none
                | [] => none
              | none => none
            else none
          | _ => none
        | none => none
      else none
    | [] => none

/-- Modelled from the spec: `parseSubtitles` parses an SRT document into
subtitle entries (empty list when the document does not parse). -/
def parseSubtitles (s : String) : List SubtitleEntry :=
  (parseCues s.data.length s.data).getD []

/-- The entry that parsing back one rendered cue produces: the id is the
decimal reading of the printed one-based cue number, times are preserved, and
the text is the cue content that was rendered. -/
def parsedEntry (mode : ExportMode) (n : Nat) (e : SubtitleEntry) :
    SubtitleEntry :=
  { id := some (Int.ofNat (decVal (Nat.repr n).data)),
    startTime := e.startTime, endTime := e.endTime,
    text := cueContent e mode }

/-- Entries produced by parsing back the rendering of a list that starts at
zero-based index `i`. -/
def parsedList (mode : ExportMode) : Nat → List SubtitleEntry → List SubtitleEntry
  | _, [] => []
  | i, e :: es => parsedEntry mode (i + 1) e :: parsedList mode (i + 1) es

/-- A timestamp is sub-millisecond-safe when it is a whole number of
milliseconds, below the 100-hour two-digit-hours rendering bound. -/
def msExact (t : ℚ) : Prop := ∃ N : ℕ, N < 360000000 ∧ t = (N : ℚ) / 1000

/-- Per-task subtitle-list invariant of the claims: no duplicate ids and
sorted by `startTime`. -/
def subtitlesInv (l : List SubtitleEntry) : Prop :=
  (l.map fun e => e.id).Nodup ∧ l.Sorted fun a b => a.startTime ≤ b.startTime

/-- Store-wide subtitle invariant: every task's subtitle list (absent lists
count as empty) satisfies `subtitlesInv`. -/
def storeSubtitlesInv (tasks : List VideoTask) : Prop :=
  ∀ t ∈ tasks, subtitlesInv (t.subtitles.getD [])

/-! ### Concrete sample tasks used by counterexamples and witnesses -/

/-- A task that has reached the terminal `completed` status. -/
def demoCompleted : VideoTask :=
  { id := "t1", status := .completed, stage := .completed, progress := 100,
    createdAt := 1, updatedAt := 1 }

/-- A pending task with no error recorded. -/
def demoPending : VideoTask :=
  { id := "t1", status := .pending, createdAt := 1, updatedAt := 1 }

/-- A processing task mid-transcription at 50 percent. -/
def demoTranscribing : VideoTask :=
  { id := "t1", status := .processing, stage := .transcribing, progress := 50,
    createdAt := 1, updatedAt := 1 }

/-- A task already in the cancelled terminal status. -/
def demoCancelled : VideoTask :=
  { id := "t1", status := .cancelled, stageDetail := "已取消",
    createdAt := 1, updatedAt := 1 }

/-- Folding a sequence of `subtitle_added` arrivals
(task id, payload, timestamp) through `handleSubtitleAdded`. -/
def processSubtitleEvents (evs : List (String × RawSubtitle × Int))
    (tasks : List VideoTask) : List VideoTask :=
  evs.foldl (fun acc p => handleSubtitleAdded acc p.1 p.2.1 p.2.2) tasks

/-- Folding a sequence of `task_progress` updates (with timestamps) through
`handleProgressUpdate`. -/
def processProgressUpdates (us : List (ProgressUpdate × Int))
    (tasks : List VideoTask) : List VideoTask :=
  us.foldl (fun acc p => handleProgressUpdate acc p.1 p.2) tasks

/-- A task with its `updatedAt` stamp zeroed out, used to compare task records
up to the automatic `updatedAt := Date.now()` bump. -/
def stripTime (t : VideoTask) : VideoTask :=
  { t with updatedAt := 0 }

/-- The record produced by the `task_failed` callback on `demoPending`. -/
def demoFailedAfter : VideoTask :=
  { demoPending with
    status := .failed
    error := some "boom"
    stageDetail := "处理失败: boom"
    updatedAt := 7 }

/-- A subtitle entry carrying only recognised text (no `originalText`). -/
def demoMonoEntry : SubtitleEntry :=
  { id := some 1, startTime := 0, endTime := 1, text := "hi" }

/-- A subtitle entry carrying both an original and a translated text. -/
def demoBiEntry : SubtitleEntry :=
  { id := some 1, startTime := 0, endTime := 1, text := "salut",
    originalText := some "hi" }

/-- A progress update that lowers the progress of `demoTranscribing` within
the same stage. -/
def demoUpdate30 : ProgressUpdate :=
  { taskId := "t1", stage := .transcribing, progress := 30, detail := "d" }

/-- The record produced by applying `demoUpdate30` to `demoTranscribing`. -/
def demoAfter30 : VideoTask :=
  { demoTranscribing with
    progress := 30
    stage := .transcribing
    stageDetail := "d"
    updatedAt := 9 }

/-! ## Theorems -/

/-- Reading a store element after `updateTask`: the task at index `n` is the
old task, merged with the updates exactly when its id matches. -/
theorem getElem?_updateTask {tasks : List VideoTask} {n : Nat} {t : VideoTask}
    (i : String) (u : TaskUpdates) (now : Int) (hn : tasks[n]? = some t) :
    (updateTask tasks i u now)[n]? =
      some (if t.id = i then applyUpdates t u now else t) := by
  simp [updateTask, List.getElem?_map, hn]

/-- Claim C1 counterexample: `updateTask` happily mutates a task that has
already reached the terminal `completed` status — the status update is
applied, not rejected. -/
theorem C1_counterexample :
    demoCompleted.status = TaskStatus.completed ∧
      (updateTask [demoCompleted] "t1" { status := some .processing } 99).map
        (fun t => t.status) = [TaskStatus.processing] := by
  constructor <;> rfl

/-- Claim C1 (amended): the store's `updateTask` performs no terminal-state
check at all: an update addressed to a task in terminal status is applied
like any other — the new status is taken from the updates object and
`updatedAt` is bumped; nothing is rejected and no `TaskAlreadyFinished`
error exists in the store layer. -/
theorem C1_terminal_not_protected (tasks : List VideoTask) (i : String)
    (u : TaskUpdates) (now : Int) (s : TaskStatus) (n : Nat) (t : VideoTask)
    (hn : tasks[n]? = some t) (hid : t.id = i)
    (_hterm : isTerminal t.status = true) (hs : u.status = some s) :
    ((updateTask tasks i u now)[n]?.map fun x => x.status) = some s ∧
      ((updateTask tasks i u now)[n]?.map fun x => x.updatedAt) = some now := by
  rw [getElem?_updateTask i u now hn, if_pos hid]
  simp [applyUpdates, hs]

/-- Witness for C1 at a concrete completed task. -/
theorem C1_witness :
    isTerminal demoCompleted.status = true ∧
      ((updateTask [demoCompleted] "t1" { status := some .processing } 99)[0]?.map
        fun x => x.status) = some TaskStatus.processing :=
  ⟨by decide,
    (C1_terminal_not_protected [demoCompleted] "t1"
      { status := some .processing } 99 .processing 0 demoCompleted rfl rfl
      (by decide) rfl).1⟩

/-- Claim C8 counterexample: `updateTask` spreads the whole updates object, so
an updates object carrying an `id` field rewrites the task's supposedly
immutable id. -/
theorem C8_counterexample :
    demoPending.id = "t1" ∧
      (updateTask [demoPending] "t1" { id := some "t2" } 5).map
        (fun t => t.id) = ["t2"] := by
  constructor <;> rfl

/-- Claim C8 (amended): `updateTask` preserves every task's id as long as the
updates object does not itself carry an `id` field (which no caller in the
repository does); an updates object with an `id` field does overwrite it. -/
theorem C8_id_preserved (tasks : List VideoTask) (i : String)
    (u : TaskUpdates) (now : Int) (hu : u.id = none) :
    (updateTask tasks i u now).map (fun t => t.id) = tasks.map fun t => t.id := by
  simp only [updateTask, List.map_map]
  refine List.map_congr_left fun t _ => ?_
  by_cases h : t.id = i <;> simp [h, applyUpdates, hu]

/-- Witness for C8 with an id-free updates object. -/
theorem C8_witness :
    ({ status := some .processing } : TaskUpdates).id = none ∧
      (updateTask [demoPending] "t1" { status := some .processing } 5).map
        (fun t => t.id) = [demoPending].map fun t => t.id :=
  ⟨rfl, C8_id_preserved [demoPending] "t1" { status := some .processing } 5 rfl⟩

/-- Claim C9 counterexample: replaying the `task_cancelled` callback on an
already-cancelled task emits a second `cancelled` event and still mutates the
record (its `updatedAt` stamp moves from 5 to 6). -/
theorem C9_counterexample :
    (handleEvent (.taskCancelled "t1")
        (handleEvent (.taskCancelled "t1") ([demoCancelled], []) 5) 6).2 =
      [WsEvent.cancelled "t1", WsEvent.cancelled "t1"] ∧
      (handleEvent (.taskCancelled "t1")
          (handleEvent (.taskCancelled "t1") ([demoCancelled], []) 5) 6).1.map
        (fun t => t.updatedAt) = [6] ∧
      (handleEvent (.taskCancelled "t1") ([demoCancelled], []) 5).1.map
        (fun t => t.updatedAt) = [5] :=
  ⟨rfl, rfl, rfl⟩

/-- Claim C9 (amended): replaying the `task_cancelled` callback is idempotent
on every task field except the automatic `updatedAt` bump, but it is not
deduplicated: every replay appends another `cancelled` event to the listener
log. -/
theorem C9_cancel_rerun (st : List VideoTask × List WsEvent) (i : String)
    (n1 n2 : Int) :
    ((handleEvent (.taskCancelled i)
          (handleEvent (.taskCancelled i) st n1) n2).1.map stripTime =
        (handleEvent (.taskCancelled i) st n1).1.map stripTime) ∧
      (handleEvent (.taskCancelled i)
          (handleEvent (.taskCancelled i) st n1) n2).2 =
        (handleEvent (.taskCancelled i) st n1).2 ++ [WsEvent.cancelled i] := by
  constructor
  · simp only [handleEvent, dispatch, updateTask, List.map_map]
    refine List.map_congr_left fun t _ => ?_
    by_cases h : t.id = i
    · simp [h, applyUpdates, stripTime]
    · simp [h]
  · simp [handleEvent, localEvent]

/-- Reading a store element after `handleSubtitleAdded` never changes the
`error` field. -/
theorem error_after_subtitleAdded {tasks : List VideoTask} {n : Nat}
    {t t' : VideoTask} (taskId : String) (raw : RawSubtitle) (now : Int)
    (hn : tasks[n]? = some t)
    (h' : (handleSubtitleAdded tasks taskId raw now)[n]? = some t') :
    t'.error = t.error := by
  unfold handleSubtitleAdded at h'
  rcases hg : getTaskById tasks taskId with _ | task0 <;> rw [hg] at h'
  · rw [hn] at h'
    cases h'
    rfl
  · rcases hnorm : normalizeSubtitle raw with _ | entry <;> rw [hnorm] at h'
    · rw [hn] at h'
      cases h'
      rfl
    · dsimp only at h'
      by_cases hdup :
        ((task0.subtitles.getD []).find? fun s => s.id = entry.id).isSome
      · rw [if_pos hdup] at h'
        rw [hn] at h'
        cases h'
        rfl
      · rw [if_neg hdup, getElem?_updateTask _ _ _ hn] at h'
        cases h'
        by_cases hid : t.id = taskId
        · simp [hid, applyUpdates]
        · simp [hid]

/-- Updating a store through `updateTask` with an updates object that does not
carry an `error` field leaves every task's `error` unchanged. -/
theorem error_after_updateTask {tasks : List VideoTask} {n : Nat}
    {t t' : VideoTask} (i : String) (u : TaskUpdates) (now : Int)
    (hn : tasks[n]? = some t)
    (h' : (updateTask tasks i u now)[n]? = some t') (hu : u.error = none) :
    t'.error = t.error := by
  rw [getElem?_updateTask _ _ _ hn] at h'
  cases h'
  by_cases hid : t.id = i
  · simp [hid, applyUpdates, hu]
  · simp [hid]

/-- Claim C6: across every socket callback, a task's `error` field changes
only when the callback also sets the task's status to `failed` (the
`task_failed` and `synthesis_failed` callbacks); in particular the
`task_cancelled` callback leaves `error` exactly as it was. -/
theorem C6_error_only_on_failed (tasks : List VideoTask) (now : Int) (n : Nat) :
    (∀ (e : IncomingEvent) (t t' : VideoTask), tasks[n]? = some t →
        (dispatch e tasks now)[n]? = some t' →
        t'.error ≠ t.error → t'.status = .failed) ∧
      (∀ (i : String) (t t' : VideoTask), tasks[n]? = some t →
        (dispatch (.taskCancelled i) tasks now)[n]? = some t' →
        t'.error = t.error) := by
  constructor
  · intro e t t' hn h' hne
    cases e with
    | taskProgress u =>
        exact absurd (error_after_updateTask _ _ _ hn h' rfl) hne
    | subtitleAdded taskId raw =>
        exact absurd (error_after_subtitleAdded taskId raw now hn h') hne
    | taskCompleted task =>
        exact absurd (error_after_updateTask _ _ _ hn h' rfl) hne
    | taskFailed taskId err =>
        rw [show dispatch (.taskFailed taskId err) tasks now =
            updateTask tasks taskId
              { status := some .failed, error := some (some err),
                stageDetail := some ("处理失败: " ++ err) } now from rfl,
          getElem?_updateTask _ _ _ hn] at h'
        cases h'
        by_cases hid : t.id = taskId
        · simp [hid, applyUpdates]
        · simp [hid] at hne
    | synthesisProgress taskId p detail ts =>
        exact absurd (error_after_updateTask _ _ _ hn h' rfl) hne
    | synthesisCompleted taskId o ts =>
        exact absurd (error_after_updateTask _ _ _ hn h' rfl) hne
    | synthesisFailed taskId err ts =>
        rw [show dispatch (.synthesisFailed taskId err ts) tasks now =
            updateTask tasks taskId
              { status := some .failed, error := some (some err),
                stageDetail := some ("合成失败: " ++ err) } now from rfl,
          getElem?_updateTask _ _ _ hn] at h'
        cases h'
        by_cases hid : t.id = taskId
        · simp [hid, applyUpdates]
        · simp [hid] at hne
    | taskCancelled taskId =>
        exact absurd (error_after_updateTask _ _ _ hn h' rfl) hne
  · intro i t t' hn h'
    exact error_after_updateTask _ _ _ hn h' rfl

/-- Witness for C6: the `task_failed` callback on `demoPending` changes
`error` and sets the status to `failed`; a `task_cancelled` callback on
`demoCancelled` leaves `error` untouched. -/
theorem C6_witness :
    demoFailedAfter.error ≠ demoPending.error ∧
      demoFailedAfter.status = TaskStatus.failed ∧
      ({ demoCancelled with updatedAt := 9 } : VideoTask).error =
        demoCancelled.error :=
  ⟨by decide,
    (C6_error_only_on_failed [demoPending] 7 0).1 (.taskFailed "t1" "boom")
      demoPending demoFailedAfter rfl rfl (by decide),
    (C6_error_only_on_failed [demoCancelled] 9 0).2 "t1" demoCancelled
      { demoCancelled with updatedAt := 9 } rfl rfl⟩

/-- Claim C7 counterexample: a progress update whose value is below the
task's current progress in the same stage is applied verbatim — progress
drops from 50 to 30 inside the `transcribing` stage, violating within-stage
monotonicity. -/
theorem C7_counterexample :
    demoTranscribing.stage = TaskStage.transcribing ∧
      demoTranscribing.progress = 50 ∧
      demoUpdate30.stage = TaskStage.transcribing ∧
      (dispatch (.taskProgress demoUpdate30) [demoTranscribing] 9).map
        (fun t => t.progress) = [30] ∧
      (30 : ℚ) < 50 :=
  ⟨rfl, rfl, rfl, rfl, by norm_num⟩

/-- Claim C7 (amended): `handleProgressUpdate` copies the incoming update's
progress into the task verbatim, with no clamping and no monotonicity check;
consequently the 0–100 range is maintained exactly when every incoming update
carries an in-range value (and within-stage monotonicity likewise only holds
when the incoming stream provides it). -/
theorem C7_progress_copied_not_clamped :
    (∀ (u : ProgressUpdate) (tasks : List VideoTask) (now : Int) (n : Nat)
        (t : VideoTask), tasks[n]? = some t →
        ((dispatch (.taskProgress u) tasks now)[n]?.map fun x => x.progress) =
          some (if t.id = u.taskId then u.progress else t.progress)) ∧
      (∀ (us : List (ProgressUpdate × Int)) (tasks : List VideoTask),
        (∀ p ∈ us, 0 ≤ p.1.progress ∧ p.1.progress ≤ 100) →
        (∀ t ∈ tasks, 0 ≤ t.progress ∧ t.progress ≤ 100) →
        ∀ t' ∈ processProgressUpdates us tasks,
          0 ≤ t'.progress ∧ t'.progress ≤ 100) := by
  constructor
  · intro u tasks now n t hn
    rw [show dispatch (.taskProgress u) tasks now =
        updateTask tasks u.taskId
          { progress := some u.progress, stage := some u.stage,
            stageDetail := some u.detail } now from rfl,
      getElem?_updateTask _ _ _ hn]
    by_cases hid : t.id = u.taskId
    · simp [hid, applyUpdates]
    · simp [hid]
  · intro us
    induction us with
    | nil => intro tasks _ htasks t' ht'; exact htasks t' ht'
    | cons p ps ih =>
        intro tasks hus htasks t' ht'
        refine ih (handleProgressUpdate tasks p.1 p.2)
          (fun q hq => hus q (List.mem_cons_of_mem _ hq)) ?_ t' ht'
        intro t ht
        unfold handleProgressUpdate updateTask at ht
        rcases List.mem_map.1 ht with ⟨t0, ht0, rfl⟩
        by_cases hid : t0.id = p.1.taskId
        · simpa [hid, applyUpdates] using hus p (List.mem_cons_self _ _)
        · simpa [hid] using htasks t0 ht0

/-- Witness for C7: the lowering update is copied verbatim, and a bounded
update stream keeps the progress of the resulting store within 0–100. -/
theorem C7_witness :
    ((dispatch (.taskProgress demoUpdate30) [demoTranscribing] 9)[0]?.map
        fun x => x.progress) = some 30 ∧
      (0 ≤ demoAfter30.progress ∧ demoAfter30.progress ≤ 100) := by
  constructor
  · have h := C7_progress_copied_not_clamped.1 demoUpdate30 [demoTranscribing]
      9 0 demoTranscribing rfl
    simpa [demoTranscribing, demoUpdate30] using h
  · refine C7_progress_copied_not_clamped.2 [(demoUpdate30, 9)]
      [demoTranscribing] ?_ ?_ demoAfter30 ?_
    · intro p hp
      rcases List.mem_singleton.1 hp with rfl
      exact ⟨by norm_num [demoUpdate30], by norm_num [demoUpdate30]⟩
    · intro t ht
      rcases List.mem_singleton.1 ht with rfl
      exact ⟨by norm_num [demoTranscribing], by norm_num [demoTranscribing]⟩
    · show demoAfter30 ∈ processProgressUpdates [(demoUpdate30, 9)] [demoTranscribing]
      exact (show processProgressUpdates [(demoUpdate30, 9)] [demoTranscribing] =
        [demoAfter30] from rfl) ▸ List.mem_singleton.2 rfl

/-- Claim C5 counterexample: in `bilingual_tagged` mode an entry without an
`originalText` renders as the single line `[O]...` — no `[T]` line is present
in that cue, and `bilingual` mode likewise collapses to one line. -/
theorem C5_counterexample :
    cueContent demoMonoEntry .bilingual_tagged = "[O]hi" ∧
      ¬ "[T]".data <:+: (cueContent demoMonoEntry .bilingual_tagged).data ∧
      cueContent demoMonoEntry .bilingual = "hi" := by
  refine ⟨rfl, ?_, rfl⟩
  decide

/-- Claim C5 (amended): a cue pairs both lines exactly when the entry carries
a nonempty `originalText`: then `bilingual` renders `original\ntranslation`
and `bilingual_tagged` renders `[O]original\n[T]translation`; an entry whose
`originalText` is absent or empty renders a single line (`text`, resp.
`[O]text`). -/
theorem C5_bilingual_modes (sub : SubtitleEntry) :
    (∀ o, sub.originalText = some o → o ≠ "" →
      cueContent sub .bilingual = o ++ "\n" ++ sub.text ∧
        cueContent sub .bilingual_tagged = "[O]" ++ o ++ "\n[T]" ++ sub.text) ∧
      (isFalsyText sub.originalText = true →
        cueContent sub .bilingual = sub.text ∧
          cueContent sub .bilingual_tagged = "[O]" ++ sub.text) := by
  constructor
  · intro o ho hne
    have hfal : isFalsyText (some o) = false := by
      simpa [isFalsyText] using hne
    constructor <;> simp [cueContent, orElseText, ho, hne, hfal]
  · intro hfal
    rcases hor : sub.originalText with _ | o
    · constructor <;> simp [cueContent, orElseText, isFalsyText, hor]
    · rw [hor] at hfal
      have ho : o = "" := by simpa [isFalsyText] using hfal
      subst ho
      constructor <;> simp [cueContent, orElseText, isFalsyText, hor]

/-- Witness for C5 at one bilingual entry and one mono entry. -/
theorem C5_witness :
    demoBiEntry.originalText = some "hi" ∧
      cueContent demoBiEntry .bilingual_tagged = "[O]" ++ "hi" ++ "\n[T]" ++ "salut" ∧
      isFalsyText demoMonoEntry.originalText = true ∧
      cueContent demoMonoEntry .bilingual_tagged = "[O]" ++ "hi" :=
  ⟨rfl,
    ((C5_bilingual_modes demoBiEntry).1 "hi" rfl (by decide)).2,
    rfl,
    ((C5_bilingual_modes demoMonoEntry).2 rfl).2⟩

/-- Claim C10 counterexample: at one tebibyte the store helper indexes past
the end of its unit array and produces `"1 undefined"`, while the
export-utility copy produces `"1 TB"`. -/
theorem C10_counterexample :
    formatFileSize_store 1099511627776 = "1 undefined" ∧
      formatFileSize_util 1099511627776 = "1 TB" := by
  have hlog : Nat.log 1024 1099511627776 = 4 :=
    Nat.log_eq_of_pow_le_of_lt_pow (by norm_num) (by norm_num)
  have hq : ((1099511627776 : ℕ) : ℚ) / (1024 : ℚ) ^ (4 : ℕ) = 1 := by
    norm_num
  have hfs : fixed2String 1 = "1" := by
    have hfloor : (⌊(1 : ℚ) * 100 + 1 / 2⌋ : ℤ) = 100 := by
      norm_num
    simp only [fixed2String, hfloor]
    rfl
  constructor
  · show (if (1099511627776 : Nat) = 0 then "0 B" else _) = _
    rw [if_neg (by norm_num)]
    dsimp only
    rw [hlog, hq, hfs]
    rfl
  · show (if (1099511627776 : Nat) = 0 then "0 B" else _) = _
    rw [if_neg (by norm_num)]
    dsimp only
    rw [hlog, hq, hfs]
    rfl

/-- Claim C10 (amended): the two `formatFileSize` implementations agree on
every byte count below 1024⁴ (the TB threshold); they diverge above it
because the store's unit array stops at `'GB'`. -/
theorem C10_agree_below_tb (bytes : Nat) (h : bytes < 1024 ^ 4) :
    formatFileSize_store bytes = formatFileSize_util bytes := by
  by_cases h0 : bytes = 0
  · simp [formatFileSize_store, formatFileSize_util, h0]
  · have hlog : Nat.log 1024 bytes < 4 := Nat.log_lt_of_lt_pow h0 h
    simp only [formatFileSize_store, formatFileSize_util, if_neg h0]
    congr 1
    set j := Nat.log 1024 bytes with hj
    interval_cases j <;> rfl

/-- Witness for C10 at a sub-terabyte byte count. -/
theorem C10_witness :
    (500000 : Nat) < 1024 ^ 4 ∧
      formatFileSize_store 500000 = formatFileSize_util 500000 :=
  ⟨by norm_num, C10_agree_below_tb 500000 (by norm_num)⟩

/-- The re-sort of `handleSubtitleAdded` sorts by `startTime`. -/
theorem jsSort_sorted (l : List SubtitleEntry) :
    (jsSortByStartTime l).Sorted fun a b => a.startTime ≤ b.startTime := by
  have hp := @List.sorted_mergeSort SubtitleEntry
    (fun a b : SubtitleEntry => decide (a.startTime ≤ b.startTime))
    (fun a b c hab hbc => by
      simp only [decide_eq_true_eq] at hab hbc ⊢
      exact le_trans hab hbc)
    (fun a b => by
      simp only [Bool.or_eq_true, decide_eq_true_eq]
      exact le_total a.startTime b.startTime) l
  exact hp.imp fun h => of_decide_eq_true h

/-- The re-sort of `handleSubtitleAdded` permutes its input. -/
theorem jsSort_perm (l : List SubtitleEntry) : (jsSortByStartTime l).Perm l :=
  List.mergeSort_perm l _

/-- One `subtitle_added` arrival preserves the per-task subtitle invariant
(no duplicate ids, sorted by `startTime`) across the whole store. -/
theorem handleSubtitleAdded_inv (tasks : List VideoTask) (taskId : String)
    (raw : RawSubtitle) (now : Int) (hinv : storeSubtitlesInv tasks) :
    storeSubtitlesInv (handleSubtitleAdded tasks taskId raw now) := by
  unfold handleSubtitleAdded
  rcases hg : getTaskById tasks taskId with _ | task0
  · exact hinv
  · rcases hnorm : normalizeSubtitle raw with _ | entry
    · exact hinv
    · dsimp only
      by_cases hdup :
        ((task0.subtitles.getD []).find? fun s => s.id = entry.id).isSome
      · rw [if_pos hdup]
        exact hinv
      · rw [if_neg hdup]
        intro t' ht'
        unfold updateTask at ht'
        rcases List.mem_map.1 ht' with ⟨t0, ht0, rfl⟩
        by_cases hid : t0.id = taskId
        · rw [if_pos hid]
          show subtitlesInv
            ((some (jsSortByStartTime ((task0.subtitles.getD []) ++ [entry]))).getD [])
          simp only [Option.getD_some]
          have htask0 : task0 ∈ tasks := List.mem_of_find?_eq_some hg
          have hold : subtitlesInv (task0.subtitles.getD []) := hinv task0 htask0
          have hnone : ((task0.subtitles.getD []).find? fun s => s.id = entry.id)
              = none := Option.not_isSome_iff_eq_none.1 hdup
          have hnotin : ∀ s ∈ task0.subtitles.getD [], ¬ s.id = entry.id := by
            intro s hs
            have := List.find?_eq_none.1 hnone s hs
            simpa using this
          constructor
          · have hperm :
                ((jsSortByStartTime ((task0.subtitles.getD []) ++ [entry])).map
                  (fun e => e.id)).Perm
                (((task0.subtitles.getD []) ++ [entry]).map fun e => e.id) :=
              (jsSort_perm _).map _
            rw [hperm.nodup_iff]
            simp only [List.map_append, List.map_cons, List.map_nil]
            rw [List.nodup_append]
            refine ⟨hold.1, List.nodup_singleton _, ?_⟩
            intro x hx hx'
            rcases List.mem_map.1 hx with ⟨s, hs, rfl⟩
            have : s.id = entry.id := by simpa using hx'
            exact hnotin s hs this
          · exact jsSort_sorted _
        · rw [if_neg hid]
          exact hinv t0 ht0

/-- Claim C2: starting from any store whose tasks satisfy the subtitle
invariant, every sequence of `subtitle_added` arrivals — in any order —
leaves every task with a subtitle list that is sorted by `startTime`
and free of duplicate ids: arrivals are merged by the sorted re-insertion of
`handleSubtitleAdded`, and an arrival whose id is already present is
dropped. -/
theorem C2_subtitle_merge_invariant (evs : List (String × RawSubtitle × Int))
    (tasks : List VideoTask) (hinv : storeSubtitlesInv tasks) :
    storeSubtitlesInv (processSubtitleEvents evs tasks) := by
  induction evs generalizing tasks with
  | nil => exact hinv
  | cons p ps ih =>
      exact ih (handleSubtitleAdded tasks p.1 p.2.1 p.2.2)
        (handleSubtitleAdded_inv tasks p.1 p.2.1 p.2.2 hinv)

/-- Witness for C2: a fresh task receives two out-of-order arrivals and the
invariant holds before and after. -/
theorem C2_witness :
    storeSubtitlesInv [demoPending] ∧
      storeSubtitlesInv (processSubtitleEvents
        [("t1", { id := some 2, startTime := some 3, endTime := some 4 }, 5),
          ("t1", { id := some 1, startTime := some 1, «end» := some 2 }, 6)]
        [demoPending]) := by
  have h0 : storeSubtitlesInv [demoPending] := by
    intro t ht
    rcases List.mem_singleton.1 ht with rfl
    exact ⟨by simp [demoPending], by simp [demoPending]⟩
  exact ⟨h0, C2_subtitle_merge_invariant _ _ h0⟩

set_option maxRecDepth 10000 in
/-- Two-digit zero-padded renderings of numbers below 100 are two digit
characters that decode back to the number. -/
theorem pad2Ok_true : ∀ n, n < 100 → pad2Ok n = true := by decide

set_option maxRecDepth 40000 in
/-- Three-digit zero-padded renderings of numbers below 1000 are three digit
characters that decode back to the number. -/
theorem pad3Ok_true : ∀ n, n < 1000 → pad3Ok n = true := by decide

/-- Destructured form of `pad2Ok_true`. -/
theorem pad2_shape {n : Nat} (h : n < 100) :
    ∃ a b, (pad2 n).data = [a, b] ∧ a.isDigit = true ∧ b.isDigit = true ∧
      digitVal a * 10 + digitVal b = n := by
  have hok := pad2Ok_true n h
  unfold pad2Ok at hok
  rcases hd : (pad2 n).data with _ | ⟨a, _ | ⟨b, _ | ⟨c, rest⟩⟩⟩ <;>
    rw [hd] at hok <;> simp only [Bool.and_eq_true, beq_iff_eq] at hok
  · exact absurd hok (by simp)
  · exact absurd hok (by simp)
  · exact ⟨a, b, rfl, hok.1.1, hok.1.2, hok.2⟩
  · exact absurd hok (by simp)

/-- Destructured form of `pad3Ok_true`. -/
theorem pad3_shape {n : Nat} (h : n < 1000) :
    ∃ a b c, (pad3 n).data = [a, b, c] ∧ a.isDigit = true ∧ b.isDigit = true ∧
      c.isDigit = true ∧ digitVal a * 100 + digitVal b * 10 + digitVal c = n := by
  have hok := pad3Ok_true n h
  unfold pad3Ok at hok
  rcases hd : (pad3 n).data with _ | ⟨a, _ | ⟨b, _ | ⟨c, _ | ⟨d, rest⟩⟩⟩⟩ <;>
    rw [hd] at hok <;> simp only [Bool.and_eq_true, beq_iff_eq] at hok
  · exact absurd hok (by simp)
  · exact absurd hok (by simp)
  · exact absurd hok (by simp)
  · exact ⟨a, b, c, rfl, hok.1.1.1, hok.1.1.2, hok.1.2, hok.2⟩
  · exact absurd hok (by simp)

/-- The decimal digit characters are digits. -/
theorem digitChar_isDigit : ∀ k, k < 10 → (Nat.digitChar k).isDigit = true := by
  decide

/-- Every character that `Nat.toDigitsCore` base 10 emits is a digit. -/
theorem toDigitsCore_all_digits :
    ∀ (fuel n : Nat) (acc : List Char), (∀ c ∈ acc, c.isDigit = true) →
      ∀ c ∈ Nat.toDigitsCore 10 fuel n acc, c.isDigit = true := by
  intro fuel
  induction fuel with
  | zero => intro n acc hacc c hc; exact hacc c hc
  | succ f ih =>
      intro n acc hacc c hc
      rw [Nat.toDigitsCore] at hc
      have hd : ∀ x ∈ Nat.digitChar (n % 10) :: acc, x.isDigit = true := by
        intro x hx
        rcases hx with _ | hx
        · exact digitChar_isDigit _ (Nat.mod_lt _ (by norm_num))
        · exact hacc x (by assumption)
      by_cases h0 : n / 10 = 0
      · rw [if_pos h0] at hc
        exact hd c hc
      · rw [if_neg h0] at hc
        exact ih (n / 10) _ hd c hc

/-- Every character of `Nat.repr` is a digit. -/
theorem repr_data_digits (n : Nat) : ∀ c ∈ (Nat.repr n).data, c.isDigit = true :=
  toDigitsCore_all_digits (n + 1) n [] (by simp)

/-- A digit character is not a newline. -/
theorem digit_ne_newline {c : Char} (h : c.isDigit = true) : (c != '\n') = true := by
  by_cases he : c = '\n'
  · subst he
    exact absurd h (by decide)
  · simp [he]

/-- Taking a line from a newline-free prefix stops exactly at the first
newline. -/
theorem takeWhile_append_nl (A B : List Char)
    (h : ∀ c ∈ A, (c != '\n') = true) :
    (A ++ '\n' :: B).takeWhile (fun c => c != '\n') = A := by
  induction A with
  | nil => simp
  | cons a as ih =>
      have ha := h a (.head _)
      simp only [List.cons_append, List.takeWhile_cons, ha, if_true]
      rw [ih fun c hc => h c (.tail _ hc)]

/-- Dropping a line from a newline-free prefix leaves the newline and the
remainder. -/
theorem dropWhile_append_nl (A B : List Char)
    (h : ∀ c ∈ A, (c != '\n') = true) :
    (A ++ '\n' :: B).dropWhile (fun c => c != '\n') = '\n' :: B := by
  induction A with
  | nil => simp
  | cons a as ih =>
      have ha := h a (.head _)
      simp only [List.cons_append, List.dropWhile_cons, ha, if_true]
      exact ih fun c hc => h c (.tail _ hc)

/-- Printing a nonnegative integer prints its natural absolute value. -/
theorem intToString_nonneg (i : Int) (h : 0 ≤ i) :
    toString i = Nat.repr i.toNat := by
  cases i with
  | ofNat n => rfl
  | negSucc n => exact absurd h (by simp)

/-- Floor of a quotient of natural-number casts is natural division. -/
theorem floor_natCast_div (N d : ℕ) :
    ⌊(N : ℚ) / ((d : ℕ) : ℚ)⌋ = ((N / d : ℕ) : ℤ) := by
  have h := Rat.floor_intCast_div_natCast (N : ℤ) d
  have h1 : (((N : ℤ)) : ℚ) = ((N : ℕ) : ℚ) := by push_cast; rfl
  rw [h1] at h
  rw [h]
  exact (Int.natCast_div N d).symm

/-- The `jsMod` used by `formatSrtTime` is the scaled fractional part. -/
theorem jsMod_eq_fract (a b : ℚ) (hb : b ≠ 0) :
    jsMod a b = b * Int.fract (a / b) := by
  have hc : b * (a / b) = a := by field_simp
  unfold jsMod
  rw [Int.fract, mul_sub, hc]

/-- For a positive modulus, `jsMod` is nonnegative. -/
theorem jsMod_nonneg (a b : ℚ) (hb : 0 < b) : 0 ≤ jsMod a b := by
  rw [jsMod_eq_fract a b hb.ne']
  exact mul_nonneg hb.le (Int.fract_nonneg _)

/-- For a positive modulus, `jsMod` is below the modulus. -/
theorem jsMod_lt (a b : ℚ) (hb : 0 < b) : jsMod a b < b := by
  rw [jsMod_eq_fract a b hb.ne']
  calc b * Int.fract (a / b) < b * 1 :=
        mul_lt_mul_of_pos_left (Int.fract_lt_one _) hb
    _ = b := mul_one b

/-- Hour component of `formatSrtTime` at a whole-millisecond time. -/
theorem srt_h_eq (N : ℕ) :
    ⌊((N : ℚ) / 1000) / 3600⌋ = ((N / 3600000 : ℕ) : ℤ) := by
  have h : ((N : ℚ) / 1000) / 3600 = (N : ℚ) / ((3600000 : ℕ) : ℚ) := by
    rw [div_div]
    norm_num
  rw [h, floor_natCast_div]

/-- Remainder after the hour component at a whole-millisecond time. -/
theorem srt_mod3600_eq (N : ℕ) :
    jsMod ((N : ℚ) / 1000) 3600 = ((N % 3600000 : ℕ) : ℚ) / 1000 := by
  unfold jsMod
  rw [srt_h_eq]
  have hdm : 3600000 * (N / 3600000) + N % 3600000 = N := Nat.div_add_mod N 3600000
  have hN : (N : ℚ) =
      3600000 * ((N / 3600000 : ℕ) : ℚ) + ((N % 3600000 : ℕ) : ℚ) := by
    exact_mod_cast hdm.symm
  rw [Int.cast_natCast, hN]
  ring

/-- Minute component of `formatSrtTime` at a whole-millisecond time. -/
theorem srt_m_eq (N : ℕ) :
    ⌊jsMod ((N : ℚ) / 1000) 3600 / 60⌋ = ((N % 3600000 / 60000 : ℕ) : ℤ) := by
  rw [srt_mod3600_eq]
  have h : ((N % 3600000 : ℕ) : ℚ) / 1000 / 60 =
      ((N % 3600000 : ℕ) : ℚ) / ((60000 : ℕ) : ℚ) := by
    rw [div_div]
    norm_num
  rw [h, floor_natCast_div]

/-- Remainder after the minute component at a whole-millisecond time. -/
theorem srt_mod60_eq (N : ℕ) :
    jsMod ((N : ℚ) / 1000) 60 = ((N % 60000 : ℕ) : ℚ) / 1000 := by
  unfold jsMod
  have h : ((N : ℚ) / 1000) / 60 = (N : ℚ) / ((60000 : ℕ) : ℚ) := by
    rw [div_div]
    norm_num
  rw [h, floor_natCast_div]
  have hdm : 60000 * (N / 60000) + N % 60000 = N := Nat.div_add_mod N 60000
  have hN : (N : ℚ) = 60000 * ((N / 60000 : ℕ) : ℚ) + ((N % 60000 : ℕ) : ℚ) := by
    exact_mod_cast hdm.symm
  rw [Int.cast_natCast, hN]
  ring

/-- Second component of `formatSrtTime` at a whole-millisecond time. -/
theorem srt_s_eq (N : ℕ) :
    ⌊jsMod ((N : ℚ) / 1000) 60⌋ = ((N % 60000 / 1000 : ℕ) : ℤ) := by
  rw [srt_mod60_eq]
  have h : ((N % 60000 : ℕ) : ℚ) / 1000 =
      ((N % 60000 : ℕ) : ℚ) / ((1000 : ℕ) : ℚ) := by norm_num
  rw [h, floor_natCast_div]

/-- Fractional remainder at a whole-millisecond time. -/
theorem srt_mod1_eq (N : ℕ) :
    jsMod ((N : ℚ) / 1000) 1 = ((N % 1000 : ℕ) : ℚ) / 1000 := by
  unfold jsMod
  have h : ((N : ℚ) / 1000) / 1 = (N : ℚ) / ((1000 : ℕ) : ℚ) := by
    rw [div_one]
    norm_num
  rw [h, floor_natCast_div]
  have hdm : 1000 * (N / 1000) + N % 1000 = N := Nat.div_add_mod N 1000
  have hN : (N : ℚ) = 1000 * ((N / 1000 : ℕ) : ℚ) + ((N % 1000 : ℕ) : ℚ) := by
    exact_mod_cast hdm.symm
  rw [Int.cast_natCast, hN]
  ring

/-- Millisecond component of `formatSrtTime` at a whole-millisecond time. -/
theorem srt_ms_eq (N : ℕ) :
    ⌊jsMod ((N : ℚ) / 1000) 1 * 1000⌋ = ((N % 1000 : ℕ) : ℤ) := by
  rw [srt_mod1_eq]
  have h : ((N % 1000 : ℕ) : ℚ) / 1000 * 1000 = ((N % 1000 : ℕ) : ℚ) := by
    field_simp
  rw [h, Int.floor_natCast]

/-- The rendering of a whole-millisecond time: `formatSrtTime` prints the
zero-padded hour, minute, second and millisecond fields obtained by exact
natural division of the millisecond count. -/
theorem formatSrtTime_eq_pads (N : ℕ) :
    formatSrtTime ((N : ℚ) / 1000) =
      pad2 (N / 3600000) ++ ":" ++ pad2 (N % 3600000 / 60000) ++ ":" ++
        pad2 (N % 60000 / 1000) ++ "," ++ pad3 (N % 1000) := by
  simp only [formatSrtTime]
  rw [srt_h_eq, srt_m_eq, srt_s_eq, srt_ms_eq]
  have hts : ∀ k : ℕ, toString ((k : ℕ) : ℤ) = Nat.repr k := fun k => rfl
  rw [hts, hts, hts, hts]
  rfl

/-- Every time in `[0, 360000)` seconds renders in the fixed
`HH:MM:SS,mmm` shape: two digits, colon, two digits, colon, two digits,
comma, three digits. -/
theorem timingToken_formatSrtTime (t : ℚ) (h0 : 0 ≤ t) (h1 : t < 360000) :
    timingToken (formatSrtTime t) = true := by
  have hh0 : 0 ≤ ⌊t / 3600⌋ := Int.floor_nonneg.2 (div_nonneg h0 (by norm_num))
  have hh1 : ⌊t / 3600⌋ < 100 := by
    rw [Int.floor_lt, div_lt_iff₀ (show (0 : ℚ) < 3600 by norm_num)]
    push_cast
    linarith
  have hm0 : 0 ≤ ⌊jsMod t 3600 / 60⌋ :=
    Int.floor_nonneg.2
      (div_nonneg (jsMod_nonneg t 3600 (by norm_num)) (by norm_num))
  have hm1 : ⌊jsMod t 3600 / 60⌋ < 100 := by
    rw [Int.floor_lt, div_lt_iff₀ (show (0 : ℚ) < 60 by norm_num)]
    have := jsMod_lt t 3600 (by norm_num)
    push_cast
    linarith
  have hs0 : 0 ≤ ⌊jsMod t 60⌋ :=
    Int.floor_nonneg.2 (jsMod_nonneg t 60 (by norm_num))
  have hs1 : ⌊jsMod t 60⌋ < 100 := by
    rw [Int.floor_lt]
    have := jsMod_lt t 60 (by norm_num)
    push_cast
    linarith
  have hq0 : 0 ≤ ⌊jsMod t 1 * 1000⌋ :=
    Int.floor_nonneg.2 (mul_nonneg (jsMod_nonneg t 1 (by norm_num)) (by norm_num))
  have hq1 : ⌊jsMod t 1 * 1000⌋ < 1000 := by
    rw [Int.floor_lt]
    have h := jsMod_lt t 1 (by norm_num)
    have := mul_lt_mul_of_pos_right h (show (0 : ℚ) < 1000 by norm_num)
    push_cast
    linarith
  obtain ⟨a1, a2, hda, ha1, ha2, -⟩ :=
    pad2_shape (n := (⌊t / 3600⌋).toNat) (by omega)
  obtain ⟨b1, b2, hdb, hb1, hb2, -⟩ :=
    pad2_shape (n := (⌊jsMod t 3600 / 60⌋).toNat) (by omega)
  obtain ⟨c1, c2, hdc, hc1, hc2, -⟩ :=
    pad2_shape (n := (⌊jsMod t 60⌋).toNat) (by omega)
  obtain ⟨d1, d2, d3, hdd, hd1, hd2, hd3, -⟩ :=
    pad3_shape (n := (⌊jsMod t 1 * 1000⌋).toNat) (by omega)
  unfold pad2 at hda hdb hdc
  unfold pad3 at hdd
  simp only [formatSrtTime]
  rw [intToString_nonneg _ hh0, intToString_nonneg _ hm0,
    intToString_nonneg _ hs0, intToString_nonneg _ hq0]
  unfold timingToken
  simp only [String.data_append, hda, hdb, hdc, hdd,
    show (":" : String).data = [':'] from rfl,
    show ("," : String).data = [','] from rfl, List.cons_append,
    List.nil_append]
  simp [ha1, ha2, hb1, hb2, hc1, hc2, hd1, hd2, hd3]

/-- Claim C3 counterexample: at 100 hours the hour field of the timing line
is three characters wide, breaking the claimed fixed `HH:MM:SS,mmm` shape:
`formatSrtTime 360000 = "100:00:00,000"`. -/
theorem C3_counterexample :
    formatSrtTime 360000 = "100:00:00,000" ∧
      timingToken (formatSrtTime 360000) = false := by
  have h : (360000 : ℚ) = ((360000000 : ℕ) : ℚ) / 1000 := by norm_num
  rw [h, formatSrtTime_eq_pads]
  constructor <;> rfl

/-- The indexed cue list of `generateSrtContent` is the claim-side list
numbered `i+1, i+2, ...`. -/
theorem srtCues_eq_zipNumbered (mode : ExportMode) (subs : List SubtitleEntry) :
    ∀ i, srtCues mode i subs =
      List.zipWith (srtCueNumbered mode) (List.range' (i + 1) subs.length) subs := by
  induction subs with
  | nil => intro i; rfl
  | cons e es ih =>
      intro i
      show srtCue mode i e :: srtCues mode (i + 1) es = _
      rw [show (e :: es).length = es.length + 1 from rfl, List.range'_succ]
      show _ = srtCueNumbered mode (i + 1) e ::
        List.zipWith (srtCueNumbered mode) (List.range' (i + 1 + 1) es.length) es
      rw [ih (i + 1)]
      rfl

/-- Claim C3 (amended): `generateSrtContent` numbers its cues `1, 2, 3, ...`
in order, and every timing field rendered from a time in `[0, 360000)`
seconds (below 100 hours) has the fixed shape `HH:MM:SS,mmm` with two-digit
hours, minutes and seconds and three-digit milliseconds; at 100 hours and
beyond the hour field grows beyond two digits. -/
theorem C3_cue_numbering_and_timing_format (subs : List SubtitleEntry)
    (mode : ExportMode)
    (hvalid : ∀ e ∈ subs, (0 ≤ e.startTime ∧ e.startTime < 360000) ∧
      (0 ≤ e.endTime ∧ e.endTime < 360000)) :
    generateSrtContent subs mode = generateSrtSpec subs mode ∧
      ∀ e ∈ subs, timingToken (formatSrtTime e.startTime) = true ∧
        timingToken (formatSrtTime e.endTime) = true := by
  constructor
  · unfold generateSrtContent generateSrtSpec
    rw [srtCues_eq_zipNumbered mode subs 0]
  · intro e he
    exact ⟨timingToken_formatSrtTime _ (hvalid e he).1.1 (hvalid e he).1.2,
      timingToken_formatSrtTime _ (hvalid e he).2.1 (hvalid e he).2.2⟩

/-- Witness for C3 at a one-entry subtitle list. -/
theorem C3_witness :
    (0 ≤ demoMonoEntry.startTime ∧ demoMonoEntry.startTime < 360000) ∧
      generateSrtContent [demoMonoEntry] .original =
        generateSrtSpec [demoMonoEntry] .original ∧
      timingToken (formatSrtTime demoMonoEntry.startTime) = true := by
  have hvalid : ∀ e ∈ [demoMonoEntry],
      (0 ≤ e.startTime ∧ e.startTime < 360000) ∧
        (0 ≤ e.endTime ∧ e.endTime < 360000) := by
    intro e he
    rcases List.mem_singleton.1 he with rfl
    refine ⟨⟨?_, ?_⟩, ?_, ?_⟩ <;> norm_num [demoMonoEntry]
  refine ⟨⟨by norm_num [demoMonoEntry], by norm_num [demoMonoEntry]⟩, ?_, ?_⟩
  · exact (C3_cue_numbering_and_timing_format [demoMonoEntry] .original hvalid).1
  · exact ((C3_cue_numbering_and_timing_format [demoMonoEntry] .original
      hvalid).2 demoMonoEntry (List.mem_singleton.2 rfl)).1

/-- Parsing back the rendering of a whole-millisecond time below 100 hours
recovers the time exactly and consumes exactly the twelve format
characters. -/
theorem parseTime12_format (N : ℕ) (hN : N < 360000000) (rest : List Char) :
    parseTime12 ((formatSrtTime ((N : ℚ) / 1000)).data ++ rest) =
      some ((N : ℚ) / 1000, rest) := by
  rw [formatSrtTime_eq_pads]
  obtain ⟨a1, a2, hda, ha1, ha2, hva⟩ :=
    pad2_shape (n := N / 3600000) (by omega)
  obtain ⟨b1, b2, hdb, hb1, hb2, hvb⟩ :=
    pad2_shape (n := N % 3600000 / 60000) (by omega)
  obtain ⟨c1, c2, hdc, hc1, hc2, hvc⟩ :=
    pad2_shape (n := N % 60000 / 1000) (by omega)
  obtain ⟨d1, d2, d3, hdd, hd1, hd2, hd3, hvd⟩ :=
    pad3_shape (n := N % 1000) (by omega)
  simp only [String.data_append, hda, hdb, hdc, hdd,
    show (":" : String).data = [':'] from rfl,
    show ("," : String).data = [','] from rfl, List.cons_append,
    List.nil_append, List.append_assoc]
  rw [show parseTime12
      (a1 :: a2 :: ':' :: b1 :: b2 :: ':' :: c1 :: c2 :: ',' ::
        d1 :: d2 :: d3 :: rest) =
      if ':' = ':' ∧ ':' = ':' ∧ ',' = ',' ∧ a1.isDigit ∧ a2.isDigit ∧
          b1.isDigit ∧ b2.isDigit ∧ c1.isDigit ∧ c2.isDigit ∧ d1.isDigit ∧
          d2.isDigit ∧ d3.isDigit then
        some ((((digitVal a1 * 10 + digitVal a2) * 3600000 +
          (digitVal b1 * 10 + digitVal b2) * 60000 +
          (digitVal c1 * 10 + digitVal c2) * 1000 +
          (digitVal d1 * 100 + digitVal d2 * 10 + digitVal d3) : ℕ) : ℚ) / 1000,
          rest)
      else none from rfl]
  rw [if_pos (by exact ⟨rfl, rfl, rfl, ha1, ha2, hb1, hb2, hc1, hc2,
    hd1, hd2, hd3⟩)]
  have hsum : (digitVal a1 * 10 + digitVal a2) * 3600000 +
      (digitVal b1 * 10 + digitVal b2) * 60000 +
      (digitVal c1 * 10 + digitVal c2) * 1000 +
      (digitVal d1 * 100 + digitVal d2 * 10 + digitVal d3) = N := by
    rw [hva, hvb, hvc, hvd]
    omega
  rw [hsum]

/-- Parsing one rendered cue body: an arbitrary newline-free index line, two
valid timing tokens and a newline-free text line are consumed exactly, and the
parser continues on the remainder after the cue's trailing newline. -/
theorem parseCues_step (f : Nat) (A : List Char)
    (hA : ∀ c ∈ A, (c != '\n') = true) (N1 N2 : ℕ) (hN1 : N1 < 360000000)
    (hN2 : N2 < 360000000) (content : String)
    (hc : ∀ c ∈ content.data, (c != '\n') = true) (r8 : List Char) :
    parseCues (f + 1)
      (A ++ '\n' :: ((formatSrtTime ((N1 : ℚ) / 1000)).data ++ ' ' :: '-' ::
        '-' :: '>' :: ' ' :: ((formatSrtTime ((N2 : ℚ) / 1000)).data ++ '\n' ::
          (content.data ++ '\n' :: r8)))) =
      match r8 with
      | [] => some [⟨some (Int.ofNat (decVal A)), (N1 : ℚ) / 1000,
          (N2 : ℚ) / 1000, content, none, none, none⟩]
      | nl4 :: r9 =>
          if nl4 = '\n' then
            (parseCues f r9).map fun es =>
              (⟨some (Int.ofNat (decVal A)), (N1 : ℚ) / 1000, (N2 : ℚ) / 1000,
                content, none, none, none⟩ : SubtitleEntry) :: es
          else none := by
  have htake := takeWhile_append_nl A
    ((formatSrtTime ((N1 : ℚ) / 1000)).data ++ ' ' :: '-' :: '-' :: '>' :: ' ' ::
      ((formatSrtTime ((N2 : ℚ) / 1000)).data ++ '\n' ::
        (content.data ++ '\n' :: r8))) hA
  have hdrop := dropWhile_append_nl A
    ((formatSrtTime ((N1 : ℚ) / 1000)).data ++ ' ' :: '-' :: '-' :: '>' :: ' ' ::
      ((formatSrtTime ((N2 : ℚ) / 1000)).data ++ '\n' ::
        (content.data ++ '\n' :: r8))) hA
  have htakeC := takeWhile_append_nl content.data r8 hc
  have hdropC := dropWhile_append_nl content.data r8 hc
  cases hA' : A with
  | nil =>
      subst hA'
      simp only [List.nil_append] at htake hdrop ⊢
      simp only [parseCues]
      rw [htake, hdrop]
      try dsimp only
      rw [if_pos rfl]
      rw [parseTime12_format N1 hN1]
      try dsimp only
      rw [if_pos (show (' ' = ' ' ∧ '-' = '-' ∧ '-' = '-' ∧ '>' = '>' ∧
        ' ' = ' ') from ⟨rfl, rfl, rfl, rfl, rfl⟩)]
      rw [parseTime12_format N2 hN2]
      try dsimp only
      rw [if_pos rfl]
      rw [htakeC, hdropC]
      try dsimp only
      rw [if_pos rfl]
  | cons a A' =>
      subst hA'
      rw [List.cons_append] at htake hdrop ⊢
      simp only [parseCues]
      rw [htake, hdrop]
      try dsimp only
      rw [if_pos rfl]
      rw [parseTime12_format N1 hN1]
      try dsimp only
      rw [if_pos (show (' ' = ' ' ∧ '-' = '-' ∧ '-' = '-' ∧ '>' = '>' ∧
        ' ' = ' ') from ⟨rfl, rfl, rfl, rfl, rfl⟩)]
      rw [parseTime12_format N2 hN2]
      try dsimp only
      rw [if_pos rfl]
      rw [htakeC, hdropC]
      try dsimp only
      rw [if_pos rfl]

/-- The parser recovers, from the rendered SRT document of a valid entry
list, exactly the entries of `parsedList`: same times, the rendered cue
content as text, and ids read back from the printed cue numbers. -/
theorem parseCues_render (subs : List SubtitleEntry) :
    ∀ i fuel : Nat, subs.length ≤ fuel →
      (∀ e ∈ subs, msExact e.startTime ∧ msExact e.endTime ∧
        ∀ c ∈ (cueContent e .original).data, (c != '\n') = true) →
      parseCues fuel ((joinSep "\n" (srtCues .original i subs)).data) =
        some (parsedList .original i subs) := by
  induction subs with
  | nil =>
      intro i fuel _ _
      show parseCues fuel (("" : String).data) = some []
      cases fuel <;> rfl
  | cons e es ih =>
      intro i fuel hfuel hval
      obtain ⟨⟨N1, hN1, hs1⟩, ⟨N2, hN2, hs2⟩, hnl⟩ :=
        hval e (List.mem_cons_self e es)
      cases fuel with
      | zero => exact absurd hfuel (by simp only [List.length_cons]; omega)
      | succ f =>
          have hA : ∀ c ∈ (toString (i + 1)).data, (c != '\n') = true :=
            fun c hc => digit_ne_newline (repr_data_digits (i + 1) c hc)
          cases es with
          | nil =>
              show parseCues (f + 1) ((srtCue .original i e).data) =
                some [parsedEntry .original (i + 1) e]
              unfold srtCue
              rw [hs1, hs2]
              simp only [String.data_append, List.append_assoc,
                List.cons_append, List.nil_append,
                show ("\n" : String).data = ['\n'] from rfl,
                show (" --> " : String).data = [' ', '-', '-', '>', ' '] from rfl]
              rw [parseCues_step f _ hA N1 N2 hN1 hN2 _ hnl []]
              try dsimp only
              simp only [parsedList, parsedEntry]
              rw [← hs1, ← hs2]
              rfl
          | cons e2 es2 =>
              show parseCues (f + 1) ((srtCue .original i e ++ "\n" ++
                joinSep "\n" (srtCues .original (i + 1) (e2 :: es2))).data) =
                some (parsedEntry .original (i + 1) e ::
                  parsedList .original (i + 1) (e2 :: es2))
              unfold srtCue
              rw [hs1, hs2]
              simp only [String.data_append, List.append_assoc,
                List.cons_append, List.nil_append,
                show ("\n" : String).data = ['\n'] from rfl,
                show (" --> " : String).data = [' ', '-', '-', '>', ' '] from rfl]
              rw [parseCues_step f _ hA N1 N2 hN1 hN2 _ hnl
                ('\n' :: (joinSep "\n"
                  (srtCues .original (i + 1) (e2 :: es2))).data)]
              try dsimp only
              rw [if_pos rfl]
              rw [ih (i + 1) f
                (by simp only [List.length_cons] at hfuel ⊢; omega)
                (fun e' he' => hval e' (List.mem_cons_of_mem _ he'))]
              simp only [Option.map_some', parsedEntry]
              rw [← hs1, ← hs2]
              rfl

/-- Re-rendering the parsed-back entries produces the same cues: the cue
number is positional, the times are preserved, and in `original` mode the
parsed text is re-selected unchanged. -/
theorem srtCues_parsedList (subs : List SubtitleEntry) :
    ∀ i, srtCues .original i (parsedList .original i subs) =
      srtCues .original i subs := by
  induction subs with
  | nil => intro i; rfl
  | cons e es ih =>
      intro i
      show srtCue .original i (parsedEntry .original (i + 1) e) ::
          srtCues .original (i + 1) (parsedList .original (i + 1) es) = _
      rw [ih (i + 1)]
      rfl

/-- The rendered document has at least one character per cue, so its length
bounds the cue count (used to supply the parser's fuel). -/
theorem render_length (subs : List SubtitleEntry) :
    ∀ i, subs.length ≤ (joinSep "\n" (srtCues .original i subs)).data.length := by
  induction subs with
  | nil => intro i; simp
  | cons e es ih =>
      intro i
      cases es with
      | nil =>
          show 1 ≤ (srtCue .original i e).data.length
          unfold srtCue
          simp only [String.data_append, List.length_append,
            show ("\n" : String).data.length = 1 from rfl]
          omega
      | cons e2 es2 =>
          have h := ih (i + 1)
          show (e :: e2 :: es2).length ≤ ((srtCue .original i e ++ "\n" ++
            joinSep "\n" (srtCues .original (i + 1) (e2 :: es2)))).data.length
          simp only [String.data_append, List.length_append, List.length_cons,
            show ("\n" : String).data.length = 1 from rfl] at h ⊢
          omega

/-- Claim C4: for every entry list whose timestamps are sub-millisecond-safe
(whole milliseconds below 100 hours) and whose rendered cue text is a single
nonbreaking line, parsing the generated SRT document back and regenerating
reproduces the document exactly —
`generateSrtContent (parseSubtitles srt) = srt` for
`srt = generateSrtContent subs`; cue indices are renumbered positionally by
the regeneration, so the equality is exact. -/
theorem C4_parse_generate_roundtrip (subs : List SubtitleEntry)
    (hval : ∀ e ∈ subs, msExact e.startTime ∧ msExact e.endTime ∧
      ∀ c ∈ (cueContent e .original).data, (c != '\n') = true) :
    generateSrtContent (parseSubtitles (generateSrtContent subs .original))
      .original = generateSrtContent subs .original := by
  unfold parseSubtitles generateSrtContent
  rw [parseCues_render subs 0 _ (render_length subs 0) hval,
    Option.getD_some, srtCues_parsedList subs 0]

/-- Witness for C4 at a one-entry list with whole-millisecond times. -/
theorem C4_witness :
    (msExact demoMonoEntry.startTime ∧ msExact demoMonoEntry.endTime) ∧
      generateSrtContent
        (parseSubtitles (generateSrtContent [demoMonoEntry] .original))
        .original = generateSrtContent [demoMonoEntry] .original := by
  have hval : ∀ e ∈ [demoMonoEntry], msExact e.startTime ∧ msExact e.endTime ∧
      ∀ c ∈ (cueContent e .original).data, (c != '\n') = true := by
    intro e he
    rcases List.mem_singleton.1 he with rfl
    exact ⟨⟨0, by norm_num, by norm_num [demoMonoEntry]⟩,
      ⟨1000, by norm_num, by norm_num [demoMonoEntry]⟩, by decide⟩
  refine ⟨?_, C4_parse_generate_roundtrip [demoMonoEntry] hval⟩
  have h := hval demoMonoEntry (List.mem_singleton.2 rfl)
  exact ⟨h.1, h.2.1⟩

end VideoSubtitleApp
